import Mathlib

/-!
Shallow embedding of `normalize_video_audio.py`: a batch audio-loudness
normalizer that drives an external engine (ffmpeg) through a two-pass
measure-then-apply protocol.  External effects (the engine's exit codes and
diagnostic output, the JSON parser of the standard library, the interactive
prompt answer, the success of the atomic replace) are inputs supplied by
oracles; the filesystem is a map from paths to file contents; every engine
invocation and filesystem commit is recorded in an event trace.
-/

namespace NormalizeVideoAudio

/-- A filesystem path, split the way `pathlib` splits a name: parent
directory, stem and suffix (the suffix includes its leading dot). -/
structure Path where
  dir : String
  stem : String
  suffix : String
deriving DecidableEq

/-- The filesystem: contents of the file at a path, `none` when absent. -/
def FS := Path → Option String

/-- Create or overwrite the file at `p` with contents `c`. -/
def fsWrite (fs : FS) (p : Path) (c : String) : FS :=
  fun q => if q = p then some c else fs q

/-- `Path.unlink`: remove the file at `p`. -/
def fsRemove (fs : FS) (p : Path) : FS :=
  fun q => if q = p then none else fs q

/-- `shutil.move(src, dst)` within one directory: `dst` receives the
contents of `src` and `src` disappears. -/
def fsMove (fs : FS) (src dst : Path) : FS :=
  fun q => if q = src then none else if q = dst then fs src else fs q

/-- The dict built by `get_loudness_stats` (lines 110-116).  The numeric
JSON values (ffmpeg prints them as decimal strings, later coerced with
`float`) are modelled as rationals. -/
structure Stats where
  measured_I : Rat
  measured_LRA : Rat
  measured_TP : Rat
  measured_thresh : Rat
  offset : Rat
deriving DecidableEq

/-- `LOUDNESS_TARGETS["I"]` (line 35). -/
def LOUDNESS_TARGETS_I : Rat := -16

/-- `LOUDNESS_TARGETS["LRA"]` (line 36). -/
def LOUDNESS_TARGETS_LRA : Rat := 11

/-- `LOUDNESS_TARGETS["TP"]` (line 37). -/
def LOUDNESS_TARGETS_TP : Rat := -3/2

/-- `VIDEO_EXTENSIONS` (line 31). -/
def VIDEO_EXTENSIONS : List String := [".mp4", ".mkv", ".mov", ".avi", ".webm"]

/-- Python's `str.strip()`: drop whitespace from both ends. -/
def strTrim (s : String) : String :=
  ⟨((s.data.dropWhile Char.isWhitespace).reverse.dropWhile Char.isWhitespace).reverse⟩

def splitLinesAux : List Char → List Char → List String
  | [], acc => [⟨acc.reverse⟩]
  | c :: cs, acc =>
    if c = '\n' then ⟨acc.reverse⟩ :: splitLinesAux cs []
    else splitLinesAux cs (c :: acc)

/-- Python's `str.split("\n")`: cut at every newline, keeping empty pieces
(`"".split("\n") == [""]`). -/
def splitLines (s : String) : List String := splitLinesAux s.data []

/-- Python's `str.startswith`. -/
def strStartsWith (s pre : String) : Bool := pre.data.isPrefixOf s.data

/-- Python's `str.endswith`. -/
def strEndsWith (s suf : String) : Bool := suf.data.reverse.isPrefixOf s.data.reverse

/-- Python's `str.lower()` (ASCII case folding). -/
def strToLower (s : String) : String := ⟨s.data.map Char.toLower⟩

/-- Python's `"\n".join(...)`. -/
def joinLines : List String → String
  | [] => ""
  | [l] => l
  | l :: rest => l ++ "\n" ++ joinLines rest

/-- The scanning loop of `get_loudness_stats` (lines 90-100): strip each
line; a line starting with a brace restarts the accumulator and sets
`in_json`; while `in_json`, lines are appended and a line ending with a
closing brace stops the loop. -/
def scanJson : List String → Bool → List String → List String
  | [], _, json_lines => json_lines
  | l :: rest, in_json, json_lines =>
    let line := strTrim l
    if strStartsWith line "\x7b" then
      scanJson rest true [line]
    else if in_json then
      let acc := json_lines ++ [line]
      if strEndsWith line "\x7d" then acc else scanJson rest in_json acc
    else
      scanJson rest in_json json_lines

/-- The dict construction of `get_loudness_stats` (lines 110-116): read the
five required keys from the parsed JSON object; a missing key (a `KeyError`
in the source, caught at line 117) yields no result. -/
def extract_stats (stats : List (String × Rat)) : Option Stats :=
  match stats.lookup "input_i", stats.lookup "input_lra",
        stats.lookup "input_tp", stats.lookup "input_thresh",
        stats.lookup "target_offset" with
  | some i, some lra, some tp, some thresh, some off =>
    some { measured_I := i, measured_LRA := lra, measured_TP := tp,
           measured_thresh := thresh, offset := off }
  | _, _, _, _, _ => none

/-- `get_loudness_stats` (lines 46-122).  The external engine's exit code
and diagnostic output are inputs; `json.loads` is the input `loads`,
returning the parsed object's key/value pairs or `none` on a parse error.
Every failure mode yields `none`; the function is total, so no exception
escapes. -/
def get_loudness_stats (loads : String → Option (List (String × Rat)))
    (returncode : Int) (stderr : String) : Option Stats :=
  if returncode ≠ 0 then none
  else
    let lines := splitLines (strTrim stderr)
    let json_output := lines.filter (fun line => strStartsWith line "\x7b")
    if json_output.isEmpty then none
    else
      let json_lines := scanJson lines false []
      if json_lines.isEmpty then none
      else
        let stats_str := joinLines json_lines
        match loads stats_str with
        | none => none
        | some stats => extract_stats stats

/-- The parameters carried by the `loudnorm` filter expression built in
`apply_normalization` (lines 134-147): the target triple and the five
measured/offset values. -/
structure LoudnormFilter where
  I : Rat
  LRA : Rat
  tp : Rat
  measured_I : Rat
  measured_LRA : Rat
  measured_tp : Rat
  measured_thresh : Rat
  offset : Rat
deriving DecidableEq

/-- The filter expression of `apply_normalization` (lines 134-147): targets
come from `source_stats` when given, otherwise from the standard constants;
the measured values always come from `stats`. -/
def loudnorm_filter (stats : Stats) (source_stats : Option Stats) : LoudnormFilter :=
  { I := match source_stats with
         | some s => s.measured_I
         | none => LOUDNESS_TARGETS_I
  , LRA := match source_stats with
           | some s => s.measured_LRA
           | none => LOUDNESS_TARGETS_LRA
  , tp := match source_stats with
          | some s => s.measured_TP
          | none => LOUDNESS_TARGETS_TP
  , measured_I := stats.measured_I
  , measured_LRA := stats.measured_LRA
  , measured_tp := stats.measured_TP
  , measured_thresh := stats.measured_thresh
  , offset := stats.offset }

/-- Observable actions of one run: engine invocations, the interactive
prompt, the commit steps and the dry-run log lines. -/
inductive Event where
  | analyze (file : Path)
  | prompt (file : Path)
  | applyNorm (input output : Path) (filt : LoudnormFilter)
  | move (src dst : Path)
  | createMarker (file : Path)
  | log (msg : String)
deriving DecidableEq

/-- The three counters of `main` (lines 256-258). -/
structure Tally where
  success_count : Nat
  skipped_count : Nat
  error_count : Nat
deriving DecidableEq

def bumpSuccess (t : Tally) : Tally := { t with success_count := t.success_count + 1 }

def bumpSkipped (t : Tally) : Tally := { t with skipped_count := t.skipped_count + 1 }

def bumpError (t : Tally) : Tally := { t with error_count := t.error_count + 1 }

/-- The command-line options of `main` that steer the per-file workflow. -/
structure Config where
  dry_run : Bool
  yes : Bool
  threshold : Rat

/-- Per-file external behaviour: the analysis invocation's exit code and
diagnostic output, the prompt answer, the apply invocation's exit code,
what it writes to the temporary output (full contents on success, an
optional partial file on failure), and whether `shutil.move` raises. -/
structure FileOracle where
  analyzeReturncode : Int
  analyzeStderr : String
  response : String
  applyReturncode : Int
  appliedContent : String
  partialOutput : Option String
  moveRaises : Bool

/-- `file_path.with_suffix(file_path.suffix + ".normalized")` (line 262). -/
def marker_path (p : Path) : Path :=
  { p with suffix := p.suffix ++ ".normalized" }

/-- `file_path.with_name(file_path.stem + ".temp_normalized" + file_path.suffix)`
(lines 310-312). -/
def temp_path (p : Path) : Path :=
  { p with stem := p.stem ++ ".temp_normalized" }

/-- `apply_normalization` (lines 125-182): the engine is invoked with the
filter expression; on exit code zero it has written the output file and the
function returns success; on a non-zero exit code it may have left a
partial output file and the function returns failure.  The original input
path is never written. -/
def apply_normalization (input_path output_path : Path) (stats : Stats)
    (source_stats : Option Stats) (orc : FileOracle) (fs : FS) :
    Bool × FS × Event :=
  let ev := Event.applyNorm input_path output_path (loudnorm_filter stats source_stats)
  if orc.applyReturncode ≠ 0 then
    match orc.partialOutput with
    | some c => (false, fsWrite fs output_path c, ev)
    | none => (false, fs, ev)
  else
    (true, fsWrite fs output_path orc.appliedContent, ev)

/-- Step 1 of the per-file loop (lines 272-279): reuse the source stats
when present, otherwise invoke the Analyzer on the file itself. -/
def analyze_step (loads : String → Option (List (String × Rat)))
    (source_stats : Option Stats) (file_path : Path) (orc : FileOracle) :
    Option Stats × List Event :=
  match source_stats with
  | some s => (some s, [])
  | none =>
    (get_loudness_stats loads orc.analyzeReturncode orc.analyzeStderr,
     [Event.analyze file_path])

/-- `target_loudness` (line 282): the reference's measured integrated
loudness when a source video was supplied, else the standard constant. -/
def target_loudness (source_stats : Option Stats) : Rat :=
  match source_stats with
  | some s => s.measured_I
  | none => LOUDNESS_TARGETS_I

/-- The body of the per-file loop of `main` (lines 261-334): marker check,
analysis (or source-stats reuse), threshold gate, confirmation gate,
dry-run short circuit, apply to a temporary path with cleanup on failure,
and the commit (atomic replace then marker creation). -/
def processFile (loads : String → Option (List (String × Rat))) (cfg : Config)
    (source_stats : Option Stats) (file_path : Path) (orc : FileOracle)
    (fs : FS) (tally : Tally) : FS × Tally × List Event :=
  let marker_file := marker_path file_path
  if (fs marker_file).isSome then
    (fs, bumpSkipped tally, [])
  else
    match analyze_step loads source_stats file_path orc with
    | (none, ev1) => (fs, bumpError tally, ev1)
    | (some stats, ev1) =>
      let tl := target_loudness source_stats
      let loudness_diff := abs (stats.measured_I - tl)
      if loudness_diff ≤ cfg.threshold then
        (fs, bumpSkipped tally, ev1)
      else
        let needPrompt := !cfg.yes && !cfg.dry_run
        let ev2 := ev1 ++ (if needPrompt then [Event.prompt file_path] else [])
        if needPrompt && !(strToLower orc.response == "y" || strToLower orc.response == "yes") then
          (fs, bumpSkipped tally, ev2)
        else if cfg.dry_run then
          (fs, bumpSuccess tally,
            ev2 ++ [Event.log ("  [DRY RUN] Would normalize: " ++ file_path.stem ++ file_path.suffix),
                    Event.log ("  [DRY RUN] Would replace original and create marker for: "
                               ++ file_path.stem ++ file_path.suffix)])
        else
          let temp_output_path := temp_path file_path
          let r := apply_normalization file_path temp_output_path stats source_stats orc fs
          if r.1 = false then
            let fs2 := if (r.2.1 temp_output_path).isSome then fsRemove r.2.1 temp_output_path
                       else r.2.1
            (fs2, bumpError tally, ev2 ++ [r.2.2])
          else if orc.moveRaises then
            (r.2.1, bumpError tally, ev2 ++ [r.2.2])
          else
            let fs2 := fsWrite (fsMove r.2.1 temp_output_path file_path) marker_file ""
            (fs2, bumpSuccess tally,
              ev2 ++ [r.2.2, Event.move temp_output_path file_path,
                      Event.createMarker file_path])

/-- One entry of the `directory.rglob("*")` traversal: `rglob` yields both
files and directories, so each entry records whether it is a regular file. -/
structure Entry where
  path : Path
  isFile : Bool
deriving DecidableEq

/-- The discovery list comprehension (lines 237-239): keep every traversal
entry whose suffix, lower-cased, is a known video extension.  The code
places no `is_file` condition on the entry. -/
def discover (entries : List Entry) : List Path :=
  (entries.filter (fun f => VIDEO_EXTENSIONS.contains (strToLower f.path.suffix))).map
    (fun f => f.path)

/-- Modelled from the spec: "given a root directory ... produce the set of
file paths anywhere under it (recursively) whose extension
(case-insensitive) belongs to a fixed allow-list".  Unlike `discover`
above (translated from the code), this keeps only regular files. -/
def discover_spec (entries : List Entry) : List Path :=
  (entries.filter (fun f => f.isFile && VIDEO_EXTENSIONS.contains (strToLower f.path.suffix))).map
    (fun f => f.path)

/-- How a run of `main` ends: aborted because the engine is unavailable
(line 233), aborted because the source video could not be analyzed
(line 248), or completed with a final filesystem and tally. -/
inductive MainOutcome where
  | ffmpegMissing
  | sourceAnalysisFailed
  | finished (fs : FS) (tally : Tally)

/-- The `for file_path in bar` loop of `main` (lines 260-334), threading
the filesystem and the tally through `processFile` and concatenating the
event traces. -/
def runFiles (loads : String → Option (List (String × Rat))) (cfg : Config)
    (source_stats : Option Stats) (orcs : Path → FileOracle) :
    List Path → FS → Tally → FS × Tally × List Event
  | [], fs, tally => (fs, tally, [])
  | f :: rest, fs, tally =>
    let r := processFile loads cfg source_stats f (orcs f) fs tally
    let r2 := runFiles loads cfg source_stats orcs rest r.1 r.2.1
    (r2.1, r2.2.1, r.2.2 ++ r2.2.2)

/-- `main` (lines 216-341): ffmpeg availability check, discovery, the
one-time source-video analysis (before the empty-list check and the loop),
then the per-file loop starting from zero tallies. -/
def main (loads : String → Option (List (String × Rat)))
    (ffmpeg_available : Bool) (entries : List Entry) (cfg : Config)
    (source_video : Option Path) (sourceReturncode : Int) (sourceStderr : String)
    (orcs : Path → FileOracle) (fs : FS) : MainOutcome × List Event :=
  if !ffmpeg_available then (MainOutcome.ffmpegMissing, [])
  else
    let video_files := discover entries
    let tally0 : Tally := ⟨0, 0, 0⟩
    match source_video with
    | some sv =>
      match get_loudness_stats loads sourceReturncode sourceStderr with
      | none => (MainOutcome.sourceAnalysisFailed, [Event.analyze sv])
      | some s =>
        if video_files.isEmpty then (MainOutcome.finished fs tally0, [Event.analyze sv])
        else
          let r := runFiles loads cfg (some s) orcs video_files fs tally0
          (MainOutcome.finished r.1 r.2.1, Event.analyze sv :: r.2.2)
    | none =>
      if video_files.isEmpty then (MainOutcome.finished fs tally0, [])
      else
        let r := runFiles loads cfg none orcs video_files fs tally0
        (MainOutcome.finished r.1 r.2.1, r.2.2)

/-! ### Basic facts about the derived paths -/

theorem str_append_ne (s t : String) (h : t.length ≠ 0) : s ++ t ≠ s := by
  intro heq
  apply h
  have hl := congrArg String.length heq
  rw [String.length_append] at hl
  omega

theorem marker_path_ne (p : Path) : marker_path p ≠ p := by
  intro h
  have hs := congrArg Path.suffix h
  simp only [marker_path] at hs
  exact str_append_ne p.suffix ".normalized" (by decide) hs

theorem temp_path_ne (p : Path) : temp_path p ≠ p := by
  intro h
  have hs := congrArg Path.stem h
  simp only [temp_path] at hs
  exact str_append_ne p.stem ".temp_normalized" (by decide) hs

theorem temp_path_ne_marker_path (p : Path) : temp_path p ≠ marker_path p := by
  intro h
  have hs := congrArg Path.stem h
  simp only [temp_path, marker_path] at hs
  exact str_append_ne p.stem ".temp_normalized" (by decide) hs

theorem fsWrite_self (fs : FS) (p : Path) (c : String) : fsWrite fs p c p = some c := by
  simp [fsWrite]

theorem fsRemove_fsWrite (fs : FS) (p : Path) (c : String) :
    fsRemove (fsWrite fs p c) p = fsRemove fs p := by
  funext q
  by_cases hq : q = p <;> simp [fsRemove, fsWrite, hq]

theorem fsRemove_of_none (fs : FS) (p : Path) (h : fs p = none) : fsRemove fs p = fs := by
  funext q
  by_cases hq : q = p
  · rw [hq]; simp [fsRemove, h]
  · simp [fsRemove, hq]

theorem isSome_false_eq_none {o : Option String} (h : o.isSome = false) : o = none := by
  cases o with
  | none => rfl
  | some c => simp at h

/-- A missing required key makes `extract_stats` return no result. -/
theorem extract_stats_eq_none (obj : List (String × Rat))
    (h : obj.lookup "input_i" = none ∨ obj.lookup "input_lra" = none ∨
         obj.lookup "input_tp" = none ∨ obj.lookup "input_thresh" = none ∨
         obj.lookup "target_offset" = none) :
    extract_stats obj = none := by
  unfold extract_stats
  cases h1 : obj.lookup "input_i" <;> cases h2 : obj.lookup "input_lra" <;>
    cases h3 : obj.lookup "input_tp" <;> cases h4 : obj.lookup "input_thresh" <;>
      cases h5 : obj.lookup "target_offset" <;> simp_all

/-- The analysis step emits either no event (source stats reused) or the
single analysis invocation on the file itself. -/
theorem analyze_step_events (loads : String → Option (List (String × Rat)))
    (source_stats : Option Stats) (f : Path) (orc : FileOracle) :
    (analyze_step loads source_stats f orc).2 = [] ∨
    (analyze_step loads source_stats f orc).2 = [Event.analyze f] := by
  cases source_stats <;> simp [analyze_step]

/-! ### Sample concrete values used by the witnesses -/

def sampleFile : Path := ⟨"videos", "clip", ".mp4"⟩

def sampleStats : Stats := ⟨-23, 7, -5, -33, 1/2⟩

def emptyFS : FS := fun _ => none

def sampleOracle : FileOracle := ⟨0, "", "n", 0, "normalized-bytes", none, false⟩

def noLoads : String → Option (List (String × Rat)) := fun _ => none

def zeroTally : Tally := ⟨0, 0, 0⟩

def srcVideo : Path := ⟨"videos", "reference", ".mp4"⟩

/-- A one-line JSON object on the diagnostic stream. -/
def goodStderr : String := "\x7b\x7d"

/-- The five required keys with concrete values. -/
def goodPairs : List (String × Rat) :=
  [("input_i", -23), ("input_lra", 7), ("input_tp", -5), ("input_thresh", -33),
   ("target_offset", 1)]

/-- A `json.loads` oracle that parses exactly the object of `goodStderr`. -/
def goodLoads : String → Option (List (String × Rat)) :=
  fun s => if s = "\x7b\x7d" then some goodPairs else none

/-- The stats `get_loudness_stats` builds from `goodPairs`. -/
def parsedStats : Stats := ⟨-23, 7, -5, -33, 1⟩

def failOracle : FileOracle := ⟨0, "", "n", 1, "bytes", some "partial", false⟩

def moveFailOracle : FileOracle := ⟨0, "", "n", 0, "bytes", none, true⟩

/-- A `json.loads` oracle that always parses to an object missing the
required keys. -/
def constLoads : String → Option (List (String × Rat)) := fun _ => some [("x", 1)]

/-- An oracle whose analysis invocation exits with code 1. -/
def failAnalyzeOracle : FileOracle := ⟨1, "", "n", 0, "", none, false⟩

/-- A single-line JSON object carrying the five required keys. -/
def cexObj : String :=
  "\x7b\"input_i\" : -23, \"input_lra\" : 7, \"input_tp\" : -5, \"input_thresh\" : -33, \"target_offset\" : 1\x7d"

/-- Diagnostic output: the single-line object followed by a noise line. -/
def cexStderr : String := cexObj ++ "\nframe=100"

/-- A `json.loads` oracle that parses exactly the single-line object. -/
def cexLoads : String → Option (List (String × Rat)) :=
  fun s => if s = cexObj then some goodPairs else none

/-- Diagnostic output: noise, then a pretty-printed multi-line object. -/
def c7Stderr : String :=
  "noise\n\x7b\n\"input_i\" : -23,\n\"input_lra\" : 7,\n\"input_tp\" : -5,\n\"input_thresh\" : -33,\n\"target_offset\" : 1\n\x7d"

/-- The multi-line object of `c7Stderr`, as the scanner joins it. -/
def c7Joined : String :=
  "\x7b\n\"input_i\" : -23,\n\"input_lra\" : 7,\n\"input_tp\" : -5,\n\"input_thresh\" : -33,\n\"target_offset\" : 1\n\x7d"

/-- A `json.loads` oracle that parses exactly the multi-line object. -/
def c7Loads : String → Option (List (String × Rat)) :=
  fun s => if s = c7Joined then some goodPairs else none

/-- A directory (not a regular file) named with a video extension. -/
def dirEntry : Entry := ⟨⟨"videos", "extras", ".mp4"⟩, false⟩

/-- A regular file with an upper-case video extension. -/
def upperFile : Path := ⟨"videos", "trailer", ".MP4"⟩

/-! ### Claim C5: marker short-circuit -/

/-- Claim C5: for a discovered file whose marker file already exists, the
workflow performs no engine invocation (empty event trace), leaves the
whole filesystem — in particular the file's bytes — unchanged, and only
increments the skip tally before moving on. -/
theorem C5_marker_short_circuit (loads : String → Option (List (String × Rat)))
    (cfg : Config) (source_stats : Option Stats) (f : Path) (orc : FileOracle)
    (fs : FS) (tally : Tally)
    (h : (fs (marker_path f)).isSome = true) :
    processFile loads cfg source_stats f orc fs tally = (fs, bumpSkipped tally, []) := by
  simp [processFile, h]

/-- Witness for C5: a concrete filesystem carrying the marker of
`sampleFile`; the second run only bumps the skip count. -/
theorem C5_witness :
    ((fsWrite emptyFS (marker_path sampleFile) "") (marker_path sampleFile)).isSome = true ∧
    processFile noLoads ⟨false, false, 2⟩ none sampleFile sampleOracle
      (fsWrite emptyFS (marker_path sampleFile) "") zeroTally =
      (fsWrite emptyFS (marker_path sampleFile) "", bumpSkipped zeroTally, []) :=
  ⟨by decide, C5_marker_short_circuit noLoads ⟨false, false, 2⟩ none sampleFile sampleOracle
      (fsWrite emptyFS (marker_path sampleFile) "") zeroTally (by decide)⟩

/-! ### Claim C3: threshold gating -/

/-- Claim C3: for a processed file (marker absent) whose measured
integrated loudness is within `threshold` of the target loudness, no apply
invocation occurs, the skip tally is incremented by one, and the
filesystem is untouched; the only possible event is the analysis itself. -/
theorem C3_threshold_gating (loads : String → Option (List (String × Rat)))
    (cfg : Config) (source_stats : Option Stats) (f : Path) (orc : FileOracle)
    (fs : FS) (tally : Tally) (st : Stats) (ev : List Event)
    (hm : (fs (marker_path f)).isSome = false)
    (hA : analyze_step loads source_stats f orc = (some st, ev))
    (hd : abs (st.measured_I - target_loudness source_stats) ≤ cfg.threshold) :
    processFile loads cfg source_stats f orc fs tally = (fs, bumpSkipped tally, ev) ∧
    ∀ i o flt, Event.applyNorm i o flt ∉ ev := by
  constructor
  · simp [processFile, hm, hA, hd]
  · rcases analyze_step_events loads source_stats f orc with h | h <;>
      rw [hA] at h <;> simp only at h <;> subst h <;> simp

/-- Witness for C3: the reference-stats case, where the measured and
target loudness coincide, so the difference 0 is within the threshold 2. -/
theorem C3_witness :
    (emptyFS (marker_path sampleFile)).isSome = false ∧
    analyze_step noLoads (some sampleStats) sampleFile sampleOracle = (some sampleStats, []) ∧
    abs (sampleStats.measured_I - target_loudness (some sampleStats)) ≤ (2 : Rat) ∧
    processFile noLoads ⟨false, false, 2⟩ (some sampleStats) sampleFile sampleOracle
        emptyFS zeroTally = (emptyFS, bumpSkipped zeroTally, []) :=
  ⟨rfl, rfl, by simp [target_loudness],
    (C3_threshold_gating noLoads ⟨false, false, 2⟩ (some sampleStats) sampleFile sampleOracle
      emptyFS zeroTally sampleStats [] rfl rfl (by simp [target_loudness])).1⟩

/-! ### Claim C9: dry-run mode -/

/-- Claim C9: in dry-run mode, a file whose loudness difference exceeds
the threshold gets the two intended-action log lines and a success-tally
increment, and the filesystem is completely untouched: no temporary file,
no replacement, no marker.  No apply, move or marker event occurs. -/
theorem C9_dry_run (loads : String → Option (List (String × Rat)))
    (cfg : Config) (source_stats : Option Stats) (f : Path) (orc : FileOracle)
    (fs : FS) (tally : Tally) (st : Stats) (ev : List Event)
    (hm : (fs (marker_path f)).isSome = false)
    (hA : analyze_step loads source_stats f orc = (some st, ev))
    (hd : cfg.threshold < abs (st.measured_I - target_loudness source_stats))
    (hdry : cfg.dry_run = true) :
    processFile loads cfg source_stats f orc fs tally =
      (fs, bumpSuccess tally,
       ev ++ [Event.log ("  [DRY RUN] Would normalize: " ++ f.stem ++ f.suffix),
              Event.log ("  [DRY RUN] Would replace original and create marker for: "
                         ++ f.stem ++ f.suffix)]) ∧
    ∀ e ∈ (processFile loads cfg source_stats f orc fs tally).2.2,
      (∀ i o flt, e ≠ Event.applyNorm i o flt) ∧
      (∀ a b, e ≠ Event.move a b) ∧ (∀ p, e ≠ Event.createMarker p) := by
  have hd' : ¬ abs (st.measured_I - target_loudness source_stats) ≤ cfg.threshold :=
    not_le.mpr hd
  have hev := analyze_step_events loads source_stats f orc
  rw [hA] at hev
  simp only at hev
  have hmain : processFile loads cfg source_stats f orc fs tally =
      (fs, bumpSuccess tally,
       ev ++ [Event.log ("  [DRY RUN] Would normalize: " ++ f.stem ++ f.suffix),
              Event.log ("  [DRY RUN] Would replace original and create marker for: "
                         ++ f.stem ++ f.suffix)]) := by
    simp [processFile, hm, hA, hd', hdry]
  refine ⟨hmain, ?_⟩
  rw [hmain]
  rcases hev with h | h <;> subst h <;> simp [List.forall_mem_cons]

/-- Witness for C9: a dry run with a negative threshold, so the zero
difference of the reference-stats case exceeds it. -/
theorem C9_witness :
    (emptyFS (marker_path sampleFile)).isSome = false ∧
    analyze_step noLoads (some sampleStats) sampleFile sampleOracle = (some sampleStats, []) ∧
    (-1 : Rat) < abs (sampleStats.measured_I - target_loudness (some sampleStats)) ∧
    processFile noLoads ⟨true, false, -1⟩ (some sampleStats) sampleFile sampleOracle
        emptyFS zeroTally =
      (emptyFS, bumpSuccess zeroTally,
       [Event.log ("  [DRY RUN] Would normalize: " ++ sampleFile.stem ++ sampleFile.suffix),
        Event.log ("  [DRY RUN] Would replace original and create marker for: "
                   ++ sampleFile.stem ++ sampleFile.suffix)]) :=
  ⟨rfl, rfl, by simp [target_loudness],
    by
      have h := (C9_dry_run noLoads ⟨true, false, -1⟩ (some sampleStats) sampleFile sampleOracle
        emptyFS zeroTally sampleStats [] rfl rfl (by simp [target_loudness]) rfl).1
      simpa using h⟩

/-! ### Claim C8: apply failure leaves the original untouched -/

/-- Claim C8: when the apply step's engine invocation exits non-zero, the
resulting filesystem is the input filesystem with the temporary output
path removed — the original file's bytes are unchanged, any partial
temporary file is deleted — the error tally is incremented, and no marker
event occurs. -/
theorem C8_apply_failure (loads : String → Option (List (String × Rat)))
    (cfg : Config) (source_stats : Option Stats) (f : Path) (orc : FileOracle)
    (fs : FS) (tally : Tally) (st : Stats) (ev : List Event)
    (hm : (fs (marker_path f)).isSome = false)
    (hA : analyze_step loads source_stats f orc = (some st, ev))
    (hd : cfg.threshold < abs (st.measured_I - target_loudness source_stats))
    (hdry : cfg.dry_run = false)
    (hgate : cfg.yes = true ∨ strToLower orc.response = "y" ∨ strToLower orc.response = "yes")
    (happly : orc.applyReturncode ≠ 0) :
    processFile loads cfg source_stats f orc fs tally =
      (fsRemove fs (temp_path f), bumpError tally,
       ev ++ (if cfg.yes then [] else [Event.prompt f]) ++
         [Event.applyNorm f (temp_path f) (loudnorm_filter st source_stats)]) ∧
    fsRemove fs (temp_path f) f = fs f ∧
    fsRemove fs (temp_path f) (temp_path f) = none ∧
    ∀ p, Event.createMarker p ∉
      ev ++ (if cfg.yes then [] else [Event.prompt f]) ++
        [Event.applyNorm f (temp_path f) (loudnorm_filter st source_stats)] := by
  have hd' : ¬ abs (st.measured_I - target_loudness source_stats) ≤ cfg.threshold :=
    not_le.mpr hd
  have hev := analyze_step_events loads source_stats f orc
  rw [hA] at hev
  simp only at hev
  obtain ⟨dr, ys, thr⟩ := cfg
  simp only at hdry hd' hgate hd ⊢
  subst hdry
  have hmain : processFile loads ⟨false, ys, thr⟩ source_stats f orc fs tally =
      (fsRemove fs (temp_path f), bumpError tally,
       ev ++ (if ys then [] else [Event.prompt f]) ++
         [Event.applyNorm f (temp_path f) (loudnorm_filter st source_stats)]) := by
    have hresp : ys = true ∨
        (strToLower orc.response == "y" || strToLower orc.response == "yes") = true := by
      rcases hgate with hy | hr | hr
      · exact Or.inl hy
      · exact Or.inr (by simp [hr])
      · exact Or.inr (by simp [hr])
    cases hpo : orc.partialOutput with
    | some c =>
      rcases hresp with hy | hr
      · subst hy
        simp [processFile, hm, hA, hd', apply_normalization, happly, hpo,
          fsWrite_self, fsRemove_fsWrite]
      · cases ys <;>
          simp [processFile, hm, hA, hd', apply_normalization, happly, hpo, hr,
            fsWrite_self, fsRemove_fsWrite]
    | none =>
      cases hex : (fs (temp_path f)).isSome with
      | true =>
        rcases hresp with hy | hr
        · subst hy
          simp [processFile, hm, hA, hd', apply_normalization, happly, hpo, hex]
        · cases ys <;>
            simp [processFile, hm, hA, hd', apply_normalization, happly, hpo, hex, hr]
      | false =>
        have hnone := isSome_false_eq_none hex
        rcases hresp with hy | hr
        · subst hy
          simp [processFile, hm, hA, hd', apply_normalization, happly, hpo, hex,
            fsRemove_of_none fs (temp_path f) hnone]
        · cases ys <;>
            simp [processFile, hm, hA, hd', apply_normalization, happly, hpo, hex, hr,
              fsRemove_of_none fs (temp_path f) hnone]
  refine ⟨hmain, ?_, ?_, ?_⟩
  · have hne : f ≠ temp_path f := fun h => temp_path_ne f h.symm
    simp [fsRemove, hne]
  · simp [fsRemove]
  · intro p
    rcases hev with h | h <;> subst h <;> cases ys <;> simp

/-- Witness for C8: the apply engine exits with code 1 leaving a partial
temporary file; the run tallies an error, and the cleanup removes the
temporary file without any other filesystem change. -/
theorem C8_witness :
    (emptyFS (marker_path sampleFile)).isSome = false ∧
    analyze_step noLoads (some sampleStats) sampleFile failOracle = (some sampleStats, []) ∧
    (-1 : Rat) < abs (sampleStats.measured_I - target_loudness (some sampleStats)) ∧
    failOracle.applyReturncode ≠ 0 ∧
    processFile noLoads ⟨false, true, -1⟩ (some sampleStats) sampleFile failOracle
        emptyFS zeroTally =
      (fsRemove emptyFS (temp_path sampleFile), bumpError zeroTally,
       [Event.applyNorm sampleFile (temp_path sampleFile)
          (loudnorm_filter sampleStats (some sampleStats))]) := by
  refine ⟨rfl, rfl, by simp [target_loudness], by decide, ?_⟩
  have h := (C8_apply_failure noLoads ⟨false, true, -1⟩ (some sampleStats) sampleFile failOracle
    emptyFS zeroTally sampleStats [] rfl rfl (by simp [target_loudness]) rfl
    (Or.inl rfl) (by decide)).1
  simpa using h

/-! ### Claim C4: the marker is created only after a successful commit -/

/-- Claim C4: once a file reaches the commit step, if the atomic replace
raises then the error tally is incremented, the marker path still holds no
file and no marker event occurs; if the replace succeeds, the event trace
ends with the apply, then the move, then the marker creation — so the
marker is created only after the temporary output has been moved over the
original. -/
theorem C4_commit_failure (loads : String → Option (List (String × Rat)))
    (cfg : Config) (source_stats : Option Stats) (f : Path) (orc : FileOracle)
    (fs : FS) (tally : Tally) (st : Stats) (ev : List Event)
    (hm : (fs (marker_path f)).isSome = false)
    (hA : analyze_step loads source_stats f orc = (some st, ev))
    (hd : cfg.threshold < abs (st.measured_I - target_loudness source_stats))
    (hdry : cfg.dry_run = false)
    (hgate : cfg.yes = true ∨ strToLower orc.response = "y" ∨ strToLower orc.response = "yes")
    (happly0 : orc.applyReturncode = 0) :
    (orc.moveRaises = true →
      processFile loads cfg source_stats f orc fs tally =
        (fsWrite fs (temp_path f) orc.appliedContent, bumpError tally,
         ev ++ (if cfg.yes then [] else [Event.prompt f]) ++
           [Event.applyNorm f (temp_path f) (loudnorm_filter st source_stats)]) ∧
      (processFile loads cfg source_stats f orc fs tally).1 (marker_path f) = none ∧
      ∀ p, Event.createMarker p ∉ (processFile loads cfg source_stats f orc fs tally).2.2) ∧
    (orc.moveRaises = false →
      processFile loads cfg source_stats f orc fs tally =
        (fsWrite (fsMove (fsWrite fs (temp_path f) orc.appliedContent) (temp_path f) f)
           (marker_path f) "",
         bumpSuccess tally,
         ev ++ (if cfg.yes then [] else [Event.prompt f]) ++
           [Event.applyNorm f (temp_path f) (loudnorm_filter st source_stats),
            Event.move (temp_path f) f, Event.createMarker f])) := by
  have hd' : ¬ abs (st.measured_I - target_loudness source_stats) ≤ cfg.threshold :=
    not_le.mpr hd
  have hev := analyze_step_events loads source_stats f orc
  rw [hA] at hev
  simp only at hev
  obtain ⟨dr, ys, thr⟩ := cfg
  simp only at hdry hd' hgate hd ⊢
  subst hdry
  have hresp : ys = true ∨
      (strToLower orc.response == "y" || strToLower orc.response == "yes") = true := by
    rcases hgate with hy | hr | hr
    · exact Or.inl hy
    · exact Or.inr (by simp [hr])
    · exact Or.inr (by simp [hr])
  constructor
  · intro hmv
    have hmain : processFile loads ⟨false, ys, thr⟩ source_stats f orc fs tally =
        (fsWrite fs (temp_path f) orc.appliedContent, bumpError tally,
         ev ++ (if ys then [] else [Event.prompt f]) ++
           [Event.applyNorm f (temp_path f) (loudnorm_filter st source_stats)]) := by
      rcases hresp with hy | hr
      · subst hy
        simp [processFile, hm, hA, hd', apply_normalization, happly0, hmv]
      · cases ys <;>
          simp [processFile, hm, hA, hd', apply_normalization, happly0, hmv, hr]
    refine ⟨hmain, ?_, ?_⟩
    · rw [hmain]
      have hne : marker_path f ≠ temp_path f := fun h => temp_path_ne_marker_path f h.symm
      simp [fsWrite, hne, isSome_false_eq_none hm]
    · rw [hmain]
      intro p
      rcases hev with h | h <;> subst h <;> cases ys <;> simp
  · intro hmv
    rcases hresp with hy | hr
    · subst hy
      simp [processFile, hm, hA, hd', apply_normalization, happly0, hmv]
    · cases ys <;>
        simp [processFile, hm, hA, hd', apply_normalization, happly0, hmv, hr]

/-- Witness for C4: the replace raises; the error tally is incremented and
the marker path still holds no file. -/
theorem C4_witness :
    moveFailOracle.moveRaises = true ∧
    (processFile noLoads ⟨false, true, -1⟩ (some sampleStats) sampleFile moveFailOracle
        emptyFS zeroTally).2.1 = bumpError zeroTally ∧
    (processFile noLoads ⟨false, true, -1⟩ (some sampleStats) sampleFile moveFailOracle
        emptyFS zeroTally).1 (marker_path sampleFile) = none := by
  have h := C4_commit_failure noLoads ⟨false, true, -1⟩ (some sampleStats) sampleFile
    moveFailOracle emptyFS zeroTally sampleStats [] rfl rfl (by simp [target_loudness])
    rfl (Or.inl rfl) rfl
  obtain ⟨h1, h2, h3⟩ := h.1 rfl
  exact ⟨rfl, by rw [h1], h2⟩

/-! ### Per-file and whole-run lemmas for the reference-video mode -/

/-- With source stats present, the per-file step emits no analysis event,
and every apply event carries the reference's measured values both as
target and as measured input. -/
theorem processFile_source_events (loads : String → Option (List (String × Rat)))
    (cfg : Config) (s : Stats) (f : Path) (orc : FileOracle) (fs : FS) (tally : Tally) :
    ∀ e ∈ (processFile loads cfg (some s) f orc fs tally).2.2,
      (∀ p, e ≠ Event.analyze p) ∧
      (∀ i o flt, e = Event.applyNorm i o flt → flt = loudnorm_filter s (some s)) := by
  intro e he
  simp only [processFile, analyze_step, apply_normalization] at he
  repeat' split at he
  all_goals
    try simp only [List.nil_append, List.append_nil, List.mem_append, List.mem_cons,
      List.mem_singleton, List.not_mem_nil, or_false, false_or] at he
  all_goals (first
    | exact he.elim
    | (subst he; simp)
    | (rcases he with rfl | rfl <;> simp)
    | (rcases he with rfl | rfl | rfl <;> simp)
    | (rcases he with rfl | rfl | rfl | rfl <;> simp))

/-- With source stats present and a non-negative threshold, the per-file
step always skips: loudness difference is zero, nothing happens. -/
theorem processFile_source_skip (loads : String → Option (List (String × Rat)))
    (cfg : Config) (s : Stats) (f : Path) (orc : FileOracle) (fs : FS) (tally : Tally)
    (hthr : 0 ≤ cfg.threshold) :
    processFile loads cfg (some s) f orc fs tally = (fs, bumpSkipped tally, []) := by
  cases hmk : (fs (marker_path f)).isSome with
  | true => simp [processFile, hmk]
  | false =>
    have h0 : abs (s.measured_I - target_loudness (some s)) ≤ cfg.threshold := by
      simpa [target_loudness] using hthr
    simp [processFile, hmk, analyze_step, h0]

/-- Folding `processFile_source_skip` over the whole loop. -/
theorem runFiles_source_skip (loads : String → Option (List (String × Rat)))
    (cfg : Config) (s : Stats) (orcs : Path → FileOracle)
    (hthr : 0 ≤ cfg.threshold) :
    ∀ (files : List Path) (fs : FS) (tally : Tally),
      runFiles loads cfg (some s) orcs files fs tally =
        (fs, ⟨tally.success_count, tally.skipped_count + files.length, tally.error_count⟩, []) := by
  intro files
  induction files with
  | nil => intro fs tally; simp [runFiles]
  | cons f rest ih =>
    intro fs tally
    simp only [runFiles, processFile_source_skip loads cfg s f (orcs f) fs tally hthr, ih]
    simp [bumpSkipped]
    omega

/-- Folding `processFile_source_events` over the whole loop. -/
theorem runFiles_source_events (loads : String → Option (List (String × Rat)))
    (cfg : Config) (s : Stats) (orcs : Path → FileOracle) :
    ∀ (files : List Path) (fs : FS) (tally : Tally),
      ∀ e ∈ (runFiles loads cfg (some s) orcs files fs tally).2.2,
        (∀ p, e ≠ Event.analyze p) ∧
        (∀ i o flt, e = Event.applyNorm i o flt → flt = loudnorm_filter s (some s)) := by
  intro files
  induction files with
  | nil => intro fs tally e he; simp [runFiles] at he
  | cons f rest ih =>
    intro fs tally e he
    simp only [runFiles, List.mem_append] at he
    rcases he with h | h
    · exact processFile_source_events loads cfg s f (orcs f) fs tally e h
    · exact ih _ _ e h

/-! ### Claim C1: reference substitution -/

/-- Claim C1: with a reference video supplied, the whole run's event trace
starts with the single analysis of the reference — no discovered file is
ever analyzed — and every apply event's filter carries the reference's
measured integrated loudness, range and true peak as the target triple and
the reference's five measured/offset values as the measured input. -/
theorem C1_reference_substitution (loads : String → Option (List (String × Rat)))
    (entries : List Entry) (cfg : Config) (sv : Path) (srcRc : Int) (srcErr : String)
    (orcs : Path → FileOracle) (fs : FS) :
    (∃ tail, (main loads true entries cfg (some sv) srcRc srcErr orcs fs).2 =
        Event.analyze sv :: tail ∧ ∀ e ∈ tail, ∀ p, e ≠ Event.analyze p) ∧
    (∀ i o flt,
      Event.applyNorm i o flt ∈ (main loads true entries cfg (some sv) srcRc srcErr orcs fs).2 →
      ∃ s, get_loudness_stats loads srcRc srcErr = some s ∧ flt = loudnorm_filter s (some s)) := by
  cases hsrc : get_loudness_stats loads srcRc srcErr with
  | none =>
    have hmain : (main loads true entries cfg (some sv) srcRc srcErr orcs fs).2 =
        [Event.analyze sv] := by
      simp [main, hsrc]
    refine ⟨⟨[], by rw [hmain], by simp⟩, ?_⟩
    intro i o flt hmem
    rw [hmain] at hmem
    simp at hmem
  | some s =>
    cases hD : discover entries with
    | nil =>
      have hmain : (main loads true entries cfg (some sv) srcRc srcErr orcs fs).2 =
          [Event.analyze sv] := by
        simp [main, hsrc, hD]
      refine ⟨⟨[], by rw [hmain], by simp⟩, ?_⟩
      intro i o flt hmem
      rw [hmain] at hmem
      simp at hmem
    | cons f rest =>
      have hev := runFiles_source_events loads cfg s orcs (f :: rest) fs ⟨0, 0, 0⟩
      have hmain : (main loads true entries cfg (some sv) srcRc srcErr orcs fs).2 =
          Event.analyze sv ::
            (runFiles loads cfg (some s) orcs (f :: rest) fs ⟨0, 0, 0⟩).2.2 := by
        simp [main, hsrc, hD]
      constructor
      · exact ⟨_, hmain, fun e he => (hev e he).1⟩
      · intro i o flt hmem
        rw [hmain] at hmem
        rcases List.mem_cons.mp hmem with h | h
        · exact absurd h (by simp)
        · exact ⟨s, rfl, (hev _ h).2 i o flt rfl⟩

/-- Witness for C1 at a concrete run: one discovered file, a reference
whose analysis fails, so the trace is exactly the one reference analysis. -/
theorem C1_witness :
    (∃ tail, (main noLoads true [⟨sampleFile, true⟩] ⟨false, false, 2⟩ (some srcVideo) 1 ""
        (fun _ => sampleOracle) emptyFS).2 = Event.analyze srcVideo :: tail ∧
        ∀ e ∈ tail, ∀ p, e ≠ Event.analyze p) ∧
    (∀ i o flt, Event.applyNorm i o flt ∈
        (main noLoads true [⟨sampleFile, true⟩] ⟨false, false, 2⟩ (some srcVideo) 1 ""
          (fun _ => sampleOracle) emptyFS).2 →
      ∃ s, get_loudness_stats noLoads 1 "" = some s ∧ flt = loudnorm_filter s (some s)) :=
  C1_reference_substitution noLoads [⟨sampleFile, true⟩] ⟨false, false, 2⟩ srcVideo 1 ""
    (fun _ => sampleOracle) emptyFS

/-! ### Claim C2: a reference run with non-negative threshold only skips -/

/-- Claim C2: with a reference whose analysis succeeded and a non-negative
threshold, the loudness difference of every file is exactly zero, so the
run finishes with the filesystem unchanged, every discovered file tallied
as skipped, and no apply, move or marker-creation event. -/
theorem C2_reference_run_skips_all (loads : String → Option (List (String × Rat)))
    (entries : List Entry) (cfg : Config) (sv : Path) (srcRc : Int) (srcErr : String)
    (orcs : Path → FileOracle) (fs : FS) (s : Stats)
    (hsrc : get_loudness_stats loads srcRc srcErr = some s)
    (hthr : 0 ≤ cfg.threshold) :
    (main loads true entries cfg (some sv) srcRc srcErr orcs fs).1 =
      MainOutcome.finished fs ⟨0, (discover entries).length, 0⟩ ∧
    abs (s.measured_I - target_loudness (some s)) = 0 ∧
    (∀ i o flt, Event.applyNorm i o flt ∉
      (main loads true entries cfg (some sv) srcRc srcErr orcs fs).2) ∧
    (∀ a b, Event.move a b ∉
      (main loads true entries cfg (some sv) srcRc srcErr orcs fs).2) ∧
    (∀ p, Event.createMarker p ∉
      (main loads true entries cfg (some sv) srcRc srcErr orcs fs).2) := by
  have hmain : main loads true entries cfg (some sv) srcRc srcErr orcs fs =
      (MainOutcome.finished fs ⟨0, (discover entries).length, 0⟩, [Event.analyze sv]) := by
    cases hD : discover entries with
    | nil => simp [main, hsrc, hD]
    | cons f rest =>
      have hrun := runFiles_source_skip loads cfg s orcs hthr (f :: rest) fs ⟨0, 0, 0⟩
      simp [main, hsrc, hD, hrun]
  refine ⟨by rw [hmain], by simp [target_loudness], ?_, ?_, ?_⟩ <;>
    (intros; rw [hmain]; simp)

/-- Witness for C2: one discovered file, a reference analysis returning
concrete stats, default threshold 2; the run finishes with one skip. -/
theorem C2_witness :
    get_loudness_stats goodLoads 0 goodStderr = some parsedStats ∧
    (0 : Rat) ≤ (2 : Rat) ∧
    (main goodLoads true [⟨sampleFile, true⟩] ⟨false, false, 2⟩ (some srcVideo) 0 goodStderr
        (fun _ => sampleOracle) emptyFS).1 =
      MainOutcome.finished emptyFS ⟨0, (discover [⟨sampleFile, true⟩]).length, 0⟩ :=
  ⟨by decide, by norm_num,
    (C2_reference_run_skips_all goodLoads [⟨sampleFile, true⟩] ⟨false, false, 2⟩ srcVideo 0
      goodStderr (fun _ => sampleOracle) emptyFS parsedStats (by decide) (by norm_num)).1⟩

/-! ### Claim C6: analyzer failure modes return no result -/

/-- Claim C6: the Analyzer returns `none` (it is a total function, so it
never raises) in each failure mode — non-zero exit code, no line starting
with a brace, JSON parse failure, parsed object missing a required key —
and in the no-reference workflow the caller turns the absent result into
an error-tally increment and moves on. -/
theorem C6_analyzer_failure_modes
    (rc1 : Int) (err1 : String) (loads1 : String → Option (List (String × Rat)))
    (rc2 : Int) (err2 : String) (loads2 : String → Option (List (String × Rat)))
    (rc3 : Int) (err3 : String) (loads3 : String → Option (List (String × Rat)))
    (rc4 : Int) (err4 : String) (loads4 : String → Option (List (String × Rat)))
    (obj4 : List (String × Rat))
    (loads5 : String → Option (List (String × Rat))) (cfg : Config) (f : Path)
    (orc : FileOracle) (fs : FS) (tally : Tally) :
    (rc1 ≠ 0 → get_loudness_stats loads1 rc1 err1 = none) ∧
    ((∀ l ∈ splitLines (strTrim err2), strStartsWith l "\x7b" = false) →
      get_loudness_stats loads2 rc2 err2 = none) ∧
    (loads3 (joinLines (scanJson (splitLines (strTrim err3)) false [])) = none →
      get_loudness_stats loads3 rc3 err3 = none) ∧
    (loads4 (joinLines (scanJson (splitLines (strTrim err4)) false [])) = some obj4 →
      (obj4.lookup "input_i" = none ∨ obj4.lookup "input_lra" = none ∨
       obj4.lookup "input_tp" = none ∨ obj4.lookup "input_thresh" = none ∨
       obj4.lookup "target_offset" = none) →
      extract_stats obj4 = none ∧ get_loudness_stats loads4 rc4 err4 = none) ∧
    ((fs (marker_path f)).isSome = false →
      get_loudness_stats loads5 orc.analyzeReturncode orc.analyzeStderr = none →
      processFile loads5 cfg none f orc fs tally = (fs, bumpError tally, [Event.analyze f])) := by
  refine ⟨?_, ?_, ?_, ?_, ?_⟩
  · intro h
    simp [get_loudness_stats, h]
  · intro h
    have hfil : (splitLines (strTrim err2)).filter (fun line => strStartsWith line "\x7b") = [] :=
      List.filter_eq_nil_iff.mpr (fun a ha => by simp [h a ha])
    rcases eq_or_ne rc2 0 with h0 | h0 <;> simp [get_loudness_stats, h0, hfil]
  · intro h
    rcases eq_or_ne rc3 0 with h0 | h0 <;> simp [get_loudness_stats, h0, h]
  · intro h hmiss
    have hex : extract_stats obj4 = none := extract_stats_eq_none obj4 hmiss
    refine ⟨hex, ?_⟩
    rcases eq_or_ne rc4 0 with h0 | h0 <;> simp [get_loudness_stats, h0, h, hex]
  · intro hm hnone
    simp [processFile, analyze_step, hm, hnone]

/-- Witness for C6: each failure mode at a concrete input, plus the caller
behaviour on a file whose analysis fails. -/
theorem C6_witness :
    ((1 : Int) ≠ 0 ∧ get_loudness_stats noLoads 1 "x" = none) ∧
    ((∀ l ∈ splitLines (strTrim "frame=1"), strStartsWith l "\x7b" = false) ∧
      get_loudness_stats noLoads 0 "frame=1" = none) ∧
    (noLoads (joinLines (scanJson (splitLines (strTrim "\x7b\x7d")) false [])) = none ∧
      get_loudness_stats noLoads 0 "\x7b\x7d" = none) ∧
    (constLoads (joinLines (scanJson (splitLines (strTrim "\x7b\x7d")) false [])) =
        some [("x", 1)] ∧
      get_loudness_stats constLoads 0 "\x7b\x7d" = none) ∧
    ((emptyFS (marker_path sampleFile)).isSome = false ∧
      get_loudness_stats noLoads failAnalyzeOracle.analyzeReturncode
        failAnalyzeOracle.analyzeStderr = none ∧
      processFile noLoads ⟨false, false, 2⟩ none sampleFile failAnalyzeOracle emptyFS zeroTally =
        (emptyFS, bumpError zeroTally, [Event.analyze sampleFile])) := by
  obtain ⟨ha, hb, hc, hd, he⟩ := C6_analyzer_failure_modes 1 "x" noLoads 0 "frame=1" noLoads
    0 "\x7b\x7d" noLoads 0 "\x7b\x7d" constLoads [("x", 1)] noLoads ⟨false, false, 2⟩
    sampleFile failAnalyzeOracle emptyFS zeroTally
  exact ⟨⟨by decide, ha (by decide)⟩, ⟨by decide, hb (by decide)⟩, ⟨rfl, hc rfl⟩,
    ⟨rfl, (hd rfl (Or.inl (by decide))).2⟩, ⟨rfl, rfl, he rfl rfl⟩⟩

/-! ### Claim C7: the JSON line scanner -/

/-- Leading lines whose stripped form does not open a brace are skipped by
the scanner without touching its state. -/
theorem scanJson_noise (ns : List String) (rest : List String)
    (h : ∀ l ∈ ns, strStartsWith (strTrim l) "\x7b" = false) :
    scanJson (ns ++ rest) false [] = scanJson rest false [] := by
  induction ns with
  | nil => rfl
  | cons n ns ih =>
    have hn := h n (by simp)
    simp only [List.cons_append, scanJson, hn]
    exact ih (fun l hl => h l (by simp [hl]))

/-- Once inside an object, interior lines (no opening brace, no closing
brace) are accumulated and the line closing the brace stops the scan,
whatever follows. -/
theorem scanJson_object (mid : List String) (las : String) (noise2 : List String)
    (hmid : ∀ l ∈ mid,
      strStartsWith (strTrim l) "\x7b" = false ∧ strEndsWith (strTrim l) "\x7d" = false)
    (hlas1 : strStartsWith (strTrim las) "\x7b" = false)
    (hlas2 : strEndsWith (strTrim las) "\x7d" = true) :
    ∀ acc, scanJson (mid ++ las :: noise2) true acc =
      acc ++ (mid.map strTrim ++ [strTrim las]) := by
  induction mid with
  | nil =>
    intro acc
    simp only [List.nil_append, scanJson, hlas1, hlas2]
    simp
  | cons m ms ih =>
    intro acc
    have hm := hmid m (by simp)
    simp only [List.cons_append, scanJson, hm.1, hm.2, Bool.false_eq_true, if_false, if_true,
      List.append_eq]
    rw [ih (fun l hl => hmid l (by simp [hl]))]
    simp

/-- Counterexample to C7 as stated: a single-line JSON object followed by
a noise line.  The noise line does not start with a brace and the object's
first line starts with `{` and its last line ends with `}`, yet the
scanner accumulates the noise line into the object text, the parse of the
joined text fails, and the Analyzer returns no result instead of the
profile. -/
theorem C7_counterexample :
    splitLines (strTrim cexStderr) = [cexObj, "frame=100"] ∧
    strStartsWith cexObj "\x7b" = true ∧
    strEndsWith cexObj "\x7d" = true ∧
    strStartsWith (strTrim "frame=100") "\x7b" = false ∧
    cexLoads cexObj = some goodPairs ∧
    scanJson (splitLines (strTrim cexStderr)) false [] = [cexObj, "frame=100"] ∧
    get_loudness_stats cexLoads 0 cexStderr = none := by
  refine ⟨by decide, by decide, by decide, by decide, by decide, by decide, by decide⟩

/-- Claim C7 amended: the tolerant extraction works when the JSON object
spans at least two lines — its first raw line starts with `{`, its
interior stripped lines neither start with `{` nor end with `}`, and its
last stripped line ends with `}` without starting with `{` — surrounded
by noise lines that do not start with `{` once stripped.  Then the
scanner accumulates exactly the object's stripped lines and, when the
parse of their join yields the five required keys, the Analyzer returns
the profile built from them.  (A single-line object is handled only when
nothing follows it, per the counterexample.) -/
theorem C7_amended_multiline (loads : String → Option (List (String × Rat)))
    (stderr : String) (noise1 : List String) (fst : String) (mid : List String)
    (las : String) (noise2 : List String) (obj : List (String × Rat))
    (i lra tp th off : Rat)
    (h0 : splitLines (strTrim stderr) = noise1 ++ fst :: (mid ++ las :: noise2))
    (h1 : ∀ l ∈ noise1, strStartsWith (strTrim l) "\x7b" = false)
    (h2 : strStartsWith fst "\x7b" = true)
    (h2t : strStartsWith (strTrim fst) "\x7b" = true)
    (h3 : ∀ l ∈ mid,
      strStartsWith (strTrim l) "\x7b" = false ∧ strEndsWith (strTrim l) "\x7d" = false)
    (h4 : strStartsWith (strTrim las) "\x7b" = false)
    (h5 : strEndsWith (strTrim las) "\x7d" = true)
    (h6 : loads (joinLines (strTrim fst :: (mid.map strTrim ++ [strTrim las]))) = some obj)
    (hk1 : obj.lookup "input_i" = some i)
    (hk2 : obj.lookup "input_lra" = some lra)
    (hk3 : obj.lookup "input_tp" = some tp)
    (hk4 : obj.lookup "input_thresh" = some th)
    (hk5 : obj.lookup "target_offset" = some off) :
    scanJson (splitLines (strTrim stderr)) false [] =
      strTrim fst :: (mid.map strTrim ++ [strTrim las]) ∧
    get_loudness_stats loads 0 stderr = some ⟨i, lra, tp, th, off⟩ := by
  have hscan : scanJson (splitLines (strTrim stderr)) false [] =
      strTrim fst :: (mid.map strTrim ++ [strTrim las]) := by
    rw [h0, scanJson_noise noise1 _ h1]
    simp only [scanJson, h2t]
    rw [scanJson_object mid las noise2 h3 h4 h5]
    simp
  refine ⟨hscan, ?_⟩
  have hmem : fst ∈ splitLines (strTrim stderr) := by rw [h0]; simp
  have hfil : ((splitLines (strTrim stderr)).filter
      (fun line => strStartsWith line "\x7b")).isEmpty = false := by
    have : fst ∈ (splitLines (strTrim stderr)).filter
        (fun line => strStartsWith line "\x7b") :=
      List.mem_filter.mpr ⟨hmem, h2⟩
    rcases hq : (splitLines (strTrim stderr)).filter
        (fun line => strStartsWith line "\x7b") with _ | ⟨a, l⟩
    · rw [hq] at this; simp at this
    · rfl
  have hse : (scanJson (splitLines (strTrim stderr)) false []).isEmpty = false := by
    rw [hscan]; rfl
  simp [get_loudness_stats, hfil, hse, hscan, h6, extract_stats, hk1, hk2, hk3, hk4, hk5]

/-- Witness for the amended C7: a concrete pretty-printed multi-line
object between noise lines, parsed into the concrete profile. -/
theorem C7_witness :
    get_loudness_stats c7Loads 0 c7Stderr = some parsedStats :=
  (C7_amended_multiline c7Loads c7Stderr ["noise"] "\x7b"
    ["\"input_i\" : -23,", "\"input_lra\" : 7,", "\"input_tp\" : -5,",
     "\"input_thresh\" : -33,", "\"target_offset\" : 1"] "\x7d" [] goodPairs
    (-23) 7 (-5) (-33) 1 (by decide) (by decide) (by decide) (by decide) (by decide)
    (by decide) (by decide) (by decide) (by decide) (by decide) (by decide)
    (by decide) (by decide)).2

/-! ### Claim C10: discovery -/

/-- Counterexample to C10 as stated: `rglob("*")` yields directories as
well as files and the comprehension filters on the suffix only, so a
directory named `extras.mp4` is discovered even though the set of file
paths with a video extension in this snapshot is empty. -/
theorem C10_counterexample :
    dirEntry.isFile = false ∧
    discover [dirEntry] = [dirEntry.path] ∧
    discover_spec [dirEntry] = [] ∧
    discover [dirEntry] ≠ discover_spec [dirEntry] := by
  refine ⟨rfl, by decide, by decide, by decide⟩

/-- Claim C10 amended: discovery produces exactly the traversal entries —
files or directories alike — whose extension, lower-cased, belongs to the
fixed allow-list; it is a pure function of the snapshot, so it has no
filesystem side effects. -/
theorem C10_discovery_members (entries : List Entry) (p : Path) :
    p ∈ discover entries ↔
      ∃ e, e ∈ entries ∧ e.path = p ∧ strToLower p.suffix ∈ VIDEO_EXTENSIONS := by
  simp only [discover, List.mem_map, List.mem_filter]
  constructor
  · rintro ⟨e, ⟨he, hc⟩, rfl⟩
    refine ⟨e, he, rfl, ?_⟩
    simpa using hc
  · rintro ⟨e, he, rfl, hmem⟩
    exact ⟨e, ⟨he, by simpa using hmem⟩, rfl⟩

/-- Witness for the amended C10: a regular file with an upper-case
extension is discovered; the directory of the counterexample is also
discovered, extension matching being the only criterion. -/
theorem C10_witness :
    upperFile ∈ discover [⟨upperFile, true⟩, dirEntry] ∧
    dirEntry.path ∈ discover [⟨upperFile, true⟩, dirEntry] :=
  ⟨(C10_discovery_members [⟨upperFile, true⟩, dirEntry] upperFile).mpr
      ⟨⟨upperFile, true⟩, by simp, rfl, by decide⟩,
    (C10_discovery_members [⟨upperFile, true⟩, dirEntry] dirEntry.path).mpr
      ⟨dirEntry, by simp, rfl, by decide⟩⟩

end NormalizeVideoAudio
